import Mathlib

/-!
Verification of the MVC education-history app (src/js/main.js) against its
specification.  The pure rendering helpers of the two views are embedded as
Lean functions; the model's fetch/callback protocol and the controller's
trigger/render cycle are embedded as trace-producing functions over an
explicit model of JS promise settlement.
-/

/-- Dataset: the parsed JSON payload plus the retrieval timestamp.  A record of
`data` is modelled as its ordered list of key/value pairs (JS object property
insertion order).  `lastRequest` is `none` until stamped by the model. -/
structure Dataset where
  title : String
  headers : List String
  data : List (List (String × String))
  lastRequest : Option String
  deriving DecidableEq, Repr

/-- Object.values of a record: the record's values in insertion order. -/
def objectValues (record : List (String × String)) : List String :=
  record.map Prod.snd

/-- HtmlView.wrapWithElement: the template literal `<${el}>${inner}</${el}>`. -/
def wrapWithElement (el : String) (inner : String) : String :=
  "<" ++ el ++ ">" ++ inner ++ "</" ++ el ++ ">"

/-- HtmlView.convertToTableHeaders: `wrapWithElement('tr', headers.map(h => wrapWithElement('th', h)).join(''))`. -/
def convertToTableHeaders (headers : List String) : String :=
  wrapWithElement "tr" (String.join (headers.map (fun h => wrapWithElement "th" h)))

/-- HtmlView.convertToTableRow: `wrapWithElement('tr', Object.values(record).map(d => wrapWithElement('td', d)).join(''))`. -/
def convertToTableRow (record : List (String × String)) : String :=
  wrapWithElement "tr" (String.join ((objectValues record).map (fun d => wrapWithElement "td" d)))

/-- HtmlView.convertToTableRows: `datarows.map(d => this.convertToTableRow(d)).join('')`. -/
def convertToTableRows (datarows : List (List (String × String))) : String :=
  String.join (datarows.map (fun d => convertToTableRow d))

/-- String.prototype.repeat: `s.repeat(n)` concatenates `n` copies of `s`. -/
def jsRepeat (s : String) : Nat → String
  | 0 => ""
  | n + 1 => s ++ jsRepeat s n

/-- ConsoleView.markdownTableHeader: the two-element array
`` [`| ${headers.join(' | ')} |`, `| ${headers.map(h => '-'.repeat(h.length)).join(' | ')} |`] ``. -/
def markdownTableHeader (headers : List String) : List String :=
  ["| " ++ String.intercalate " | " headers ++ " |",
   "| " ++ String.intercalate " | " (headers.map (fun h => jsRepeat "-" h.length)) ++ " |"]

/-- ConsoleView.createMarkdownTable: header lines plus the `'\n'`-joined data
lines, all joined with `'\n'`. -/
def createMarkdownTable (d : Dataset) : String :=
  String.intercalate "\n"
    (markdownTableHeader d.headers ++
      [String.intercalate "\n"
        (d.data.map (fun r => "| " ++ String.intercalate " | " (objectValues r) ++ " |"))])

/-- ConsoleView.emit: the string passed to console.log,
`` `${data.title} (Markdown)\n\n${table}\n` ``. -/
def consoleEmitString (d : Dataset) : String :=
  d.title ++ " (Markdown)\n\n" ++ createMarkdownTable d ++ "\n"

/-- The concrete Dataset of the spec's LogTableView scenario. -/
def eduDataset : Dataset :=
  ⟨"Edu", ["School", "Year"], [[("School", "BU"), ("Year", "2020")]], some "12:00:00 PM"⟩

/-- Spec-side description of the Markdown separator line: one run of dash
characters per header, sized to that header's character length, joined by
`" | "` and wrapped in pipes. -/
def sepLineSpec (headers : List String) : String :=
  "| " ++ String.intercalate " | " (headers.map (fun h => String.mk (List.replicate h.length '-'))) ++ " |"

/-- Spec-side rendered header cells: one cell per entry of `headers`, in order. -/
def renderedHeaderCells (d : Dataset) : List String :=
  d.headers

/-- Spec-side rendered body: one row per record, each row holding that record's
values in insertion order. -/
def renderedBodyRows (d : Dataset) : List (List String) :=
  d.data.map objectValues

lemma jsRepeat_dash (n : Nat) : jsRepeat "-" n = String.mk (List.replicate n '-') := by
  induction n with
  | zero => rfl
  | succ n ih =>
    simp only [jsRepeat, ih, List.replicate_succ]
    rfl

/-- C3: for the scenario Dataset, LogTableView's render writes exactly the
title, the "(Markdown)" marker, a blank line, and the three Markdown table
lines to the diagnostic stream. -/
theorem C3_console_markdown_scenario :
    consoleEmitString eduDataset
      = "Edu (Markdown)\n\n| School | Year |\n| ------ | ---- |\n| BU | 2020 |\n" := by
  decide

/-- C4: for every non-empty list of headers the Markdown separator line is one
dash-run per header sized to that header's length, joined by " | " and wrapped
in pipes; in particular for ["A", "BB"] it is "| - | -- |". -/
theorem C4_markdown_separator_line (headers : List String) (h : headers ≠ []) :
    (markdownTableHeader headers).get? 1 = some (sepLineSpec headers)
    ∧ (markdownTableHeader ["A", "BB"]).get? 1 = some "| - | -- |" := by
  constructor
  · simp only [markdownTableHeader, sepLineSpec, jsRepeat_dash, List.get?]
  · decide

/-- Witness for C4 at the concrete header list ["A", "BB"]. -/
theorem C4_markdown_separator_line_witness :
    (markdownTableHeader ["A", "BB"]).get? 1 = some (sepLineSpec ["A", "BB"])
    ∧ (markdownTableHeader ["A", "BB"]).get? 1 = some "| - | -- |" :=
  C4_markdown_separator_line ["A", "BB"] (by decide)

/-- C8: the rendered header row is exactly one th-cell per entry of
`d.headers` in order; the body has exactly one tr-row per record of `d.data`,
and each row's cells are that record's values in insertion order. -/
theorem C8_html_cells_match_dataset (d : Dataset) :
    convertToTableHeaders d.headers
      = wrapWithElement "tr" (String.join ((renderedHeaderCells d).map (fun h => wrapWithElement "th" h)))
    ∧ convertToTableRows d.data
      = String.join ((renderedBodyRows d).map
          (fun row => wrapWithElement "tr" (String.join (row.map (fun c => wrapWithElement "td" c)))))
    ∧ (renderedBodyRows d).length = d.data.length
    ∧ ∀ i : Nat, (renderedBodyRows d).get? i = (d.data.get? i).map objectValues := by
  refine ⟨rfl, ?_, by simp [renderedBodyRows], fun i => by simp [renderedBodyRows]⟩
  simp [convertToTableRows, convertToTableRow, renderedBodyRows, List.map_map, Function.comp_def]

/-- C10: wrapWithElement concatenates the open tag, the raw inner string and
the close tag with no escaping, so markup characters in a data value are
embedded unchanged into the generated table row HTML. -/
theorem C10_no_escaping :
    (∀ el inner : String, wrapWithElement el inner = "<" ++ el ++ ">" ++ inner ++ "</" ++ el ++ ">")
    ∧ (∀ s : String, (convertToTableRow [("k", s)]).data
        = "<tr><td>".data ++ s.data ++ "</td></tr>".data)
    ∧ convertToTableRow [("k", "<script>alert(1)</script>")]
        = "<tr><td><script>alert(1)</script></td></tr>" := by
  refine ⟨fun el inner => rfl, fun s => ?_, by decide⟩
  simp [convertToTableRow, objectValues, wrapWithElement, String.join]

/-- Outcome of one fetch cycle as seen by `EducationHistoryModel.getData`: the
network request either fails, or succeeds and the body then either fails to
parse as JSON or parses to a raw Dataset (which carries no `lastRequest`). -/
inductive FetchOutcome where
  | success (raw : Dataset)
  | networkError (e : String)
  | parseError (e : String)
  deriving DecidableEq, Repr

/-- Whether the cycle's fetch-and-parse failed. -/
def FetchOutcome.isFailure : FetchOutcome → Bool
  | .success _ => false
  | _ => true

/-- Observable events of one `getData` run, with `Cb` the type of the stored
completion callback. -/
inductive MEvent (Cb : Type) where
  | logMsg (s : String)
  | logError (s : String)
  | callbackInvoked (cb : Cb) (d : Dataset)

/-- State of an EducationHistoryModel instance: the single completion-callback
slot (`this.getDataCallback`, absent until bound) and the cached dataset
(`this.history`, absent until the first successful fetch). -/
structure ModelState (Cb : Type) where
  getDataCallback : Option Cb
  history : Option Dataset

/-- EducationHistoryModel.bindGetDataCallback: `this.getDataCallback = callback`. -/
def bindGetDataCallback (cb : Cb) (st : ModelState Cb) : ModelState Cb :=
  ⟨some cb, st.history⟩

/-- The model's stamping of the parsed result:
`this.history = data; this.history.lastRequest = new Date().toLocaleTimeString()`,
which overwrites any prior `lastRequest` field of the parsed result. -/
def stamp (d : Dataset) (now : String) : Dataset :=
  ⟨d.title, d.headers, d.data, some now⟩

/-- EducationHistoryModel.getData, one cycle: on network failure the catch logs
the error; after the fetch (and delay) settle it logs success, then parses; a
parse failure also lands in the catch; on success it stamps the result into
`this.history` and calls `this.getDataCallback(this.history)` (calling the
absent slot raises a TypeError that the same catch logs).  Returns the new
model state and the cycle's events in order. -/
def getDataStep (st : ModelState Cb) (outcome : FetchOutcome) (now : String) :
    ModelState Cb × List (MEvent Cb) :=
  match outcome with
  | .networkError e => (st, [.logError ("Error: " ++ e)])
  | .parseError e =>
      (st, [.logMsg "Data retrieval successful.", .logError ("Error: " ++ e)])
  | .success raw =>
      match st.getDataCallback with
      | some cb =>
          (⟨some cb, some (stamp raw now)⟩,
           [.logMsg "Data retrieval successful.", .callbackInvoked cb (stamp raw now)])
      | none =>
          (⟨none, some (stamp raw now)⟩,
           [.logMsg "Data retrieval successful.",
            .logError "Error: TypeError: this.getDataCallback is not a function"])

/-- Whether an event is an invocation of the completion callback. -/
def MEvent.isCbInvoked : MEvent Cb → Bool
  | .callbackInvoked _ _ => true
  | _ => false

/-- C6: on every successful fetch the model overwrites the parsed result's
`lastRequest` with the current time and invokes the registered callback
exactly once, with that stamped Dataset as its argument. -/
theorem C6_stamp_and_invoke_once (Cb : Type) (cb : Cb) (st : ModelState Cb)
    (raw : Dataset) (now : String) :
    (getDataStep (bindGetDataCallback cb st) (.success raw) now).2
      = [.logMsg "Data retrieval successful.", .callbackInvoked cb (stamp raw now)]
    ∧ (stamp raw now).lastRequest = some now
    ∧ ((getDataStep (bindGetDataCallback cb st) (.success raw) now).2.countP
        MEvent.isCbInvoked) = 1 := by
  refine ⟨rfl, rfl, ?_⟩
  simp [getDataStep, bindGetDataCallback, List.countP, List.countP.go, MEvent.isCbInvoked]

/-- C9: the model stores exactly one completion callback; registering `f` and
then `g` leaves the same state as registering `g` alone, and a subsequent
successful fetch invokes only the most recently registered callback. -/
theorem C9_single_callback_slot (Cb : Type) (f g : Cb) (st : ModelState Cb)
    (raw : Dataset) (now : String) :
    bindGetDataCallback g (bindGetDataCallback f st) = bindGetDataCallback g st
    ∧ (getDataStep (bindGetDataCallback g (bindGetDataCallback f st)) (.success raw) now).2
        = [.logMsg "Data retrieval successful.", .callbackInvoked g (stamp raw now)] :=
  ⟨rfl, rfl⟩

/-- A JS promise, abstracted to the tick at which it settles and whether it
fulfills or rejects (with an error message). -/
structure PromiseSpec where
  settleAt : Nat
  result : Except String Unit
  deriving Repr

/-- A JS value as it appears in the array built by the controller's
`views.map(...)`: either `undefined` or a promise. -/
inductive JSValue where
  | undef
  | promise (p : PromiseSpec)
  deriving Repr

/-- Result of evaluating a JS call expression: either it throws synchronously,
or it returns (here always a promise, since `emit` is an async function). -/
inductive CallResult where
  | syncThrow (e : String)
  | returned (p : PromiseSpec)
  deriving Repr

/-- A registered view, abstracted to the behaviour of its async `emit`: how
many ticks until the promise it returns settles, and whether the body
completes normally or throws (rejecting that promise). -/
structure ViewSpec where
  emitDelay : Dataset → Nat
  emitResult : Dataset → Except String Unit

/-- The promise returned by `v.emit(data)`. -/
def emitPromise (v : ViewSpec) (d : Dataset) : PromiseSpec :=
  ⟨v.emitDelay d, v.emitResult d⟩

/-- Evaluating the call `v.emit(data)`: `emit` is declared `async`, so the call
always returns a promise and never throws synchronously — a `throw` inside the
body surfaces only as a rejection of the returned promise. -/
def callEmit (v : ViewSpec) (d : Dataset) : CallResult :=
  .returned (emitPromise v d)

/-- Observable events of one controller cycle (views identified by their index
in the controller's view list). -/
inductive CEvent where
  | initLoading (i : Nat)
  | fetchResolved
  | modelLog (s : String)
  | modelLogError (s : String)
  | callbackStart (d : Dataset)
  | emitInvoked (i : Nat)
  | ctrlLogError (i : Nat)
  | unhandledRejection (i : Nat) (e : String)
  deriving DecidableEq, Repr

def CEvent.isInitL : CEvent → Bool
  | .initLoading _ => true
  | _ => false

def CEvent.isEmitInv : CEvent → Bool
  | .emitInvoked _ => true
  | _ => false

def CEvent.isCbStart : CEvent → Bool
  | .callbackStart _ => true
  | _ => false

def CEvent.isModelErr : CEvent → Bool
  | .modelLogError _ => true
  | _ => false

def CEvent.isCtrlErr : CEvent → Bool
  | .ctrlLogError _ => true
  | _ => false

def CEvent.isUnhandled : CEvent → Bool
  | .unhandledRejection _ _ => true
  | _ => false

/-- Controller.process, first half: `this.views.forEach(v => v.initLoadingData())`,
one call per view in list order, before `this.model.getData()` is started. -/
def initLoop : Nat → List ViewSpec → List CEvent
  | _, [] => []
  | i, _v :: rest => CEvent.initLoading i :: initLoop (i + 1) rest

/-- The body of the controller's `this.views.map(v => { try { v.emit(data); }
catch (err) { console.error(...) } })`, iterated over the view list.  The try
block's call is evaluated per view: a synchronous throw would be caught and
logged (`ctrlLogError`), but an async call only returns a promise, whose
rejection the catch cannot see; the block has no return statement, so each
array element is `undefined` and the emit promise is discarded.  Returns the
events (the per-view render invocations), the mapped array handed to
`Promise.all`, and the discarded promises. -/
def emitLoop (d : Dataset) : Nat → List ViewSpec →
    List CEvent × List JSValue × List (Nat × PromiseSpec)
  | _, [] => ([], [], [])
  | i, v :: rest =>
    let r := emitLoop d (i + 1) rest
    match callEmit v d with
    | .syncThrow _e => (CEvent.ctrlLogError i :: r.1, JSValue.undef :: r.2.1, r.2.2)
    | .returned p => (CEvent.emitInvoked i :: r.1, JSValue.undef :: r.2.1, (i, p) :: r.2.2)

/-- A discarded rejected promise surfaces as a host-level unhandled promise
rejection (after the cycle's synchronous work). -/
def unhandledEvents (disc : List (Nat × PromiseSpec)) : List CEvent :=
  disc.filterMap (fun ip =>
    match ip.2.result with
    | .error e => some (CEvent.unhandledRejection ip.1 e)
    | .ok _ => none)

def JSValue.asPromise : JSValue → Option PromiseSpec
  | .undef => none
  | .promise p => some p

def PromiseSpec.isRejected (p : PromiseSpec) : Bool :=
  match p.result with
  | .error _ => true
  | .ok _ => false

/-- Promise.all over the mapped array: non-promise elements are treated as
already settled; it fulfills once every promise element has fulfilled (tick 0
when there are none), and rejects at the first rejection. -/
def promiseAll (l : List JSValue) : PromiseSpec :=
  match (l.filterMap JSValue.asPromise).filter PromiseSpec.isRejected with
  | [] => ⟨(l.filterMap JSValue.asPromise).foldl (fun t p => max t p.settleAt) 0, .ok ()⟩
  | r :: rs => rs.foldl (fun a b => if b.settleAt < a.settleAt then b else a) r

/-- The promise returned by `Controller.dataFetchCallback`: the async arrow
function awaits `Promise.all` of the mapped array and then returns, so its own
promise settles exactly when that `Promise.all` promise settles. -/
def dataFetchCallbackPromise (views : List ViewSpec) (d : Dataset) : PromiseSpec :=
  promiseAll (emitLoop d 0 views).2.1

/-- Expansion of one model event into controller-cycle events: a data-ready
callback invocation starts `dataFetchCallback`, which runs the per-view emit
loop; unhandled rejections of the discarded emit promises surface afterwards. -/
def mEventToC (views : List ViewSpec) : MEvent Unit → List CEvent
  | .logMsg s => [CEvent.modelLog s]
  | .logError s => [CEvent.modelLogError s]
  | .callbackInvoked _ d =>
      CEvent.callbackStart d :: (emitLoop d 0 views).1 ++ unhandledEvents (emitLoop d 0 views).2.2

/-- Events of one cycle after the fetch settles: the model's getData chain with
the controller's `dataFetchCallback` bound as the completion callback (as done
in `Controller`'s constructor). -/
def cyclePost (views : List ViewSpec) (outcome : FetchOutcome) (now : String) : List CEvent :=
  ((getDataStep (⟨some (), none⟩ : ModelState Unit) outcome now).2.map (mEventToC views)).flatten

/-- One full trigger cycle: `process()` calls `initLoadingData` on every view,
then starts the fetch; the `fetchResolved` marker separates everything that
happens before the fetch settles from everything after. -/
def cycleTrace (views : List ViewSpec) (outcome : FetchOutcome) (now : String) : List CEvent :=
  initLoop 0 views ++ CEvent.fetchResolved :: cyclePost views outcome now

lemma initLoop_count (i : Nat) (vs : List ViewSpec) : ∀ k : Nat,
    (initLoop k vs).count (CEvent.initLoading i) = if k ≤ i ∧ i < k + vs.length then 1 else 0 := by
  induction vs with
  | nil =>
    intro k
    simp only [initLoop, List.count_nil, List.length_nil, Nat.add_zero]
    split_ifs <;> omega
  | cons v rest ih =>
    intro k
    simp only [initLoop, List.count_cons, ih (k + 1), beq_iff_eq, CEvent.initLoading.injEq,
      List.length_cons]
    split_ifs <;> omega

lemma initLoop_countP_zero (p : CEvent → Bool) (hp : ∀ i, p (CEvent.initLoading i) = false) :
    ∀ (k : Nat) (vs : List ViewSpec), (initLoop k vs).countP p = 0 := by
  intro k vs
  induction vs generalizing k with
  | nil => simp [initLoop]
  | cons v rest ih => simp [initLoop, List.countP_cons, hp, ih]

lemma emitLoop_count (d : Dataset) (i : Nat) (vs : List ViewSpec) : ∀ k : Nat,
    (emitLoop d k vs).1.count (CEvent.emitInvoked i) = if k ≤ i ∧ i < k + vs.length then 1 else 0 := by
  induction vs with
  | nil =>
    intro k
    simp only [emitLoop, List.count_nil, List.length_nil, Nat.add_zero]
    split_ifs <;> omega
  | cons v rest ih =>
    intro k
    simp only [emitLoop, callEmit, List.count_cons, ih (k + 1), beq_iff_eq,
      CEvent.emitInvoked.injEq, List.length_cons]
    split_ifs <;> omega

lemma emitLoop_countP_zero (d : Dataset) (p : CEvent → Bool)
    (hp : ∀ i, p (CEvent.emitInvoked i) = false) :
    ∀ (k : Nat) (vs : List ViewSpec), (emitLoop d k vs).1.countP p = 0 := by
  intro k vs
  induction vs generalizing k with
  | nil => simp [emitLoop]
  | cons v rest ih => simp [emitLoop, callEmit, List.countP_cons, hp, ih]

lemma unhandledEvents_countP_zero (p : CEvent → Bool)
    (hp : ∀ i e, p (CEvent.unhandledRejection i e) = false) :
    ∀ disc : List (Nat × PromiseSpec), (unhandledEvents disc).countP p = 0 := by
  intro disc
  induction disc with
  | nil => rfl
  | cons ip rest ih =>
    cases hres : ip.2.result with
    | error e =>
      have hstep : unhandledEvents (ip :: rest)
          = CEvent.unhandledRejection ip.1 e :: unhandledEvents rest := by
        simp [unhandledEvents, List.filterMap_cons, hres]
      simp [hstep, List.countP_cons, ih, hp]
    | ok u =>
      have hstep : unhandledEvents (ip :: rest) = unhandledEvents rest := by
        simp [unhandledEvents, List.filterMap_cons, hres]
      simp [hstep, ih]

lemma emitInv_notMem_unhandled (i : Nat) (disc : List (Nat × PromiseSpec)) :
    CEvent.emitInvoked i ∉ unhandledEvents disc := by
  intro hmem
  rw [unhandledEvents] at hmem
  obtain ⟨ip, -, hf⟩ := List.mem_filterMap.mp hmem
  cases hres : ip.2.result <;> simp [hres] at hf

lemma cyclePost_success (views : List ViewSpec) (raw : Dataset) (now : String) :
    cyclePost views (.success raw) now
      = CEvent.modelLog "Data retrieval successful."
        :: CEvent.callbackStart (stamp raw now)
        :: ((emitLoop (stamp raw now) 0 views).1
            ++ unhandledEvents (emitLoop (stamp raw now) 0 views).2.2) := by
  simp [cyclePost, getDataStep, mEventToC]

/-- C7: on a trigger with a successful fetch, initLoadingData is called on
every registered view before the fetch resolves and on none after, and emit is
invoked on every registered view after the fetch resolves and on none before —
exactly once per view per trigger. -/
theorem C7_init_before_render_after (views : List ViewSpec) (raw : Dataset)
    (now : String) (i : Nat) :
    cycleTrace views (.success raw) now
      = initLoop 0 views ++ CEvent.fetchResolved :: cyclePost views (.success raw) now
    ∧ (initLoop 0 views).count (CEvent.initLoading i) = (if i < views.length then 1 else 0)
    ∧ (cyclePost views (.success raw) now).countP CEvent.isInitL = 0
    ∧ (initLoop 0 views).countP CEvent.isEmitInv = 0
    ∧ (cyclePost views (.success raw) now).count (CEvent.emitInvoked i)
        = (if i < views.length then 1 else 0) := by
  refine ⟨rfl, ?_, ?_, ?_, ?_⟩
  · rw [initLoop_count]
    split_ifs <;> omega
  · rw [cyclePost_success]
    simp [List.countP_cons, List.countP_append, CEvent.isInitL,
      emitLoop_countP_zero (stamp raw now) CEvent.isInitL (fun _ => rfl),
      unhandledEvents_countP_zero CEvent.isInitL (fun _ _ => rfl)]
  · exact initLoop_countP_zero CEvent.isEmitInv (fun _ => rfl) 0 views
  · rw [cyclePost_success]
    simp only [List.count_cons, List.count_append, emitLoop_count (stamp raw now) i views 0,
      List.count_eq_zero.mpr (emitInv_notMem_unhandled i _), beq_iff_eq]
    split_ifs <;> simp_all

/-- C5: on a fetch or parse failure the failure is logged, the completion
callback is never invoked, and no view's render is invoked in that cycle. -/
theorem C5_fetch_failure_no_render (views : List ViewSpec) (outcome : FetchOutcome)
    (now : String) (hfail : outcome.isFailure = true) :
    (cycleTrace views outcome now).countP CEvent.isEmitInv = 0
    ∧ (cycleTrace views outcome now).countP CEvent.isCbStart = 0
    ∧ (cycleTrace views outcome now).countP CEvent.isModelErr = 1 := by
  cases outcome with
  | success raw => simp [FetchOutcome.isFailure] at hfail
  | networkError e =>
      refine ⟨?_, ?_, ?_⟩ <;>
        simp [cycleTrace, cyclePost, getDataStep, mEventToC, List.countP_append,
          List.countP_cons, CEvent.isEmitInv, CEvent.isCbStart, CEvent.isModelErr,
          initLoop_countP_zero CEvent.isEmitInv (fun _ => rfl),
          initLoop_countP_zero CEvent.isCbStart (fun _ => rfl),
          initLoop_countP_zero CEvent.isModelErr (fun _ => rfl)]
  | parseError e =>
      refine ⟨?_, ?_, ?_⟩ <;>
        simp [cycleTrace, cyclePost, getDataStep, mEventToC, List.countP_append,
          List.countP_cons, CEvent.isEmitInv, CEvent.isCbStart, CEvent.isModelErr,
          initLoop_countP_zero CEvent.isEmitInv (fun _ => rfl),
          initLoop_countP_zero CEvent.isCbStart (fun _ => rfl),
          initLoop_countP_zero CEvent.isModelErr (fun _ => rfl)]

/-- A view whose async emit body completes normally at once. -/
def okView : ViewSpec :=
  ⟨fun _ => 0, fun _ => Except.ok ()⟩

/-- A view whose async emit body throws, rejecting the promise it returns. -/
def throwingView : ViewSpec :=
  ⟨fun _ => 0, fun _ => Except.error "render failed"⟩

/-- A view whose async emit settles only one tick later (a render with a real
suspension point). -/
def slowView : ViewSpec :=
  ⟨fun _ => 1, fun _ => Except.ok ()⟩

/-- The raw Dataset as parsed from the JSON file (no lastRequest yet). -/
def rawEdu : Dataset :=
  ⟨"Edu", ["School", "Year"], [[("School", "BU"), ("Year", "2020")]], none⟩

/-- Witness for C5 at a concrete failing cycle. -/
theorem C5_fetch_failure_no_render_witness :
    (cycleTrace [okView] (.networkError "net down") "12:00:00 PM").countP CEvent.isEmitInv = 0
    ∧ (cycleTrace [okView] (.networkError "net down") "12:00:00 PM").countP CEvent.isCbStart = 0
    ∧ (cycleTrace [okView] (.networkError "net down") "12:00:00 PM").countP CEvent.isModelErr = 1 :=
  C5_fetch_failure_no_render [okView] (.networkError "net down") "12:00:00 PM" rfl

/-- C1 (counter-evidence): when the first view's async emit throws during a
data-ready cycle, the remaining view is still rendered, but the controller's
try/catch never fires — no "An error has occurred" log is produced — and the
rejection escapes the callback as a host-level unhandled promise rejection. -/
theorem C1_render_error_escapes_uncaught :
    (cycleTrace [throwingView, okView] (.success rawEdu) "12:00:00 PM").count
        (CEvent.emitInvoked 0) = 1
    ∧ (cycleTrace [throwingView, okView] (.success rawEdu) "12:00:00 PM").count
        (CEvent.emitInvoked 1) = 1
    ∧ (cycleTrace [throwingView, okView] (.success rawEdu) "12:00:00 PM").countP
        CEvent.isCtrlErr = 0
    ∧ (cycleTrace [throwingView, okView] (.success rawEdu) "12:00:00 PM").countP
        CEvent.isUnhandled = 1 := by
  decide

/-- C2 (counter-evidence): dataFetchCallback's map callback never returns the
emit promise, so Promise.all receives only undefined values and the callback's
returned promise settles at tick 0, strictly before a pending view render
settles at tick 1. -/
theorem C2_callback_settles_before_render :
    (dataFetchCallbackPromise [slowView] eduDataset).settleAt = 0
    ∧ (emitPromise slowView eduDataset).settleAt = 1
    ∧ (dataFetchCallbackPromise [slowView] eduDataset).settleAt
        < (emitPromise slowView eduDataset).settleAt := by
  refine ⟨rfl, rfl, ?_⟩
  decide
